import Mathlib

/-!
Verification of the cloudops repository (pault84/cloudops).

The Go source `src/cloudops.go` provides the constants, error types and
interface scaffolding; they are embedded directly below.  The Storage
Distribution Resolution Engine described by the specification is not
present in the source tree (the spec itself notes the repository contains
only the surrounding type/interface scaffolding), so the engine — data
model, row filter, row ranker, capacity allocator and resolution engine —
is modelled from the spec and marked as such in the doc comments.
-/

/-! ## Embedding of src/cloudops.go -/

/-- Embeds the Go constant `SetIdentifierNone = "None"`: the default
identifier used to group all disks from a particular set. -/
def SetIdentifierNone : String := "None"

/-- Embeds the Go `iota` block of storage error codes: `_ = iota + 5000`
consumes `iota = 0`, so the first named constant receives `5000 + 1`. -/
def storageErrCodeBase : Int := 5000

/-- ErrVolDetached is code for a volume detached on the instance. -/
def ErrVolDetached : Int := storageErrCodeBase + 1

/-- ErrVolInval is the code for an invalid volume. -/
def ErrVolInval : Int := storageErrCodeBase + 2

/-- ErrVolAttachedOnRemoteNode is code when a volume is attached on a
remote node rather than locally. -/
def ErrVolAttachedOnRemoteNode : Int := storageErrCodeBase + 3

/-- ErrVolNotFound is code when a volume is not found. -/
def ErrVolNotFound : Int := storageErrCodeBase + 4

/-- ErrInvalidDevicePath is code when a volume/disk has an invalid device
path. -/
def ErrInvalidDevicePath : Int := storageErrCodeBase + 5

/-- Embeds the Go struct `StorageError`: error returned for storage
operations, with a driver error code, a human readable message and an
instance giving more information. -/
structure StorageError where
  Code : Int
  Msg : String
  Instance : String
deriving DecidableEq, Repr

/-- Embeds `NewStorageError(code, msg, instance)`, which builds a
`StorageError` with the three fields set from the arguments. -/
def NewStorageError (code : Int) (msg : String) (inst : String) : StorageError :=
  ⟨code, msg, inst⟩

/-- Embeds the Go method `func (e *StorageError) Error() string`, which
returns `e.Msg`. -/
def StorageError.Error (e : StorageError) : String := e.Msg

/-! ## Storage Distribution Resolution Engine (modelled from the spec) -/

/-- Modelled from the spec: priority is an ordinal label used only for
ranking among otherwise-valid rows, with "high" > "medium" > "low"
(spec 3 and 9 ask for an explicit ordered enumeration). -/
inductive Priority where
  | low : Priority
  | medium : Priority
  | high : Priority
deriving DecidableEq, Repr

/-- Ordinal rank of a priority label: higher label, higher rank. -/
def Priority.rank : Priority → Nat
  | .low => 0
  | .medium => 1
  | .high => 2

/-- Modelled from the spec: `DecisionMatrixRow`, one provider-supported
configuration (spec 3).  Sizes and capacities are nonnegative integers in
a consistent unit; `instanceType = "*"` is the wildcard and `region = ""`
means region-independent.  `driveType` is the caller-supplied label for
the row's underlying drive class (spec 4.3). -/
structure DecisionMatrixRow where
  iops : Nat
  instanceType : String
  minDrivesPerInstance : Nat
  maxDrivesPerInstance : Nat
  region : String
  minSize : Nat
  maxSize : Nat
  priority : Priority
  thinProvisioning : Bool
  driveType : String
deriving DecidableEq, Repr

/-- Modelled from the spec: `CapacitySpec`, one user-stated requirement
(spec 3): desired iops, and inclusive total-capacity bounds. -/
structure CapacitySpec where
  iops : Nat
  minCapacity : Nat
  maxCapacity : Nat
deriving DecidableEq, Repr

/-- Modelled from the spec: `DistributionRequest` (spec 3): ordered
sequence of capacity specs, target instance type, instances per zone and
zone count. -/
structure DistributionRequest where
  specs : List CapacitySpec
  instanceType : String
  instancesPerZone : Nat
  zoneCount : Nat
deriving DecidableEq, Repr

/-- Modelled from the spec: `PoolSpec` (spec 3), the resolved per-instance
drive configuration satisfying one input spec. -/
structure PoolSpec where
  driveCapacity : Nat
  driveType : String
  driveCount : Nat
deriving DecidableEq, Repr

/-- Modelled from the spec: `DistributionResponse` (spec 3): one pool spec
per input spec, order preserving, with `instancesPerZone` echoed back. -/
structure DistributionResponse where
  instanceStorage : List PoolSpec
  instancesPerZone : Nat
deriving DecidableEq, Repr

/-- Modelled from the spec: the error kinds of spec 7.  The structured
detail payloads (filter parameters, attempted rows) are informational and
omitted from the model; only the kind of each error is tracked. -/
inductive ResolutionError where
  | noMatchingRows : ResolutionError
  | capacityUnsatisfiable : ResolutionError
  | noFeasibleConfiguration : ResolutionError
  | invalidRequest : ResolutionError
deriving DecidableEq, Repr

/-- Modelled from the spec: the row filter condition of spec 4.1.  A row
is a candidate iff its instance type matches (or is the wildcard `"*"`),
its region matches (or is empty, meaning region-independent), and its
iops meet the desired floor. -/
def rowMatches (row : DecisionMatrixRow) (instanceType region : String)
    (desiredIOPS : Nat) : Bool :=
  (row.instanceType == instanceType || row.instanceType == "*") &&
  (row.region == region || row.region == "") &&
  (desiredIOPS ≤ row.iops)

/-- Modelled from the spec: the candidate rows kept by the row filter
(spec 4.1). -/
def filterRows (matrix : List DecisionMatrixRow) (instanceType region : String)
    (desiredIOPS : Nat) : List DecisionMatrixRow :=
  matrix.filter (fun row => rowMatches row instanceType region desiredIOPS)

/-- Modelled from the spec: `filter(matrix, instanceType, region,
desiredIOPS) → candidateRows`, failing with `NoMatchingRows` when the
candidate list is empty (spec 4.1). -/
def rowFilter (matrix : List DecisionMatrixRow) (instanceType region : String)
    (desiredIOPS : Nat) : Except ResolutionError (List DecisionMatrixRow) :=
  let candidates := filterRows matrix instanceType region desiredIOPS
  if candidates.isEmpty then .error .noMatchingRows else .ok candidates

/-- Width of a row's size window, used by the ranker's first tie-break
(spec 4.2: narrowest `(minSize, maxSize)` window). -/
def sizeWindow (row : DecisionMatrixRow) : Nat := row.maxSize - row.minSize

/-- Modelled from the spec: the ranker's ordering test (spec 4.2): `a`
may come before `b` when `a` has higher priority; on equal priority when
`a` has the narrower size window; on equal window when `a` has the lower
`minDrivesPerInstance`. -/
def rankBefore (a b : DecisionMatrixRow) : Bool :=
  if a.priority.rank ≠ b.priority.rank then b.priority.rank < a.priority.rank
  else if sizeWindow a ≠ sizeWindow b then sizeWindow a < sizeWindow b
  else a.minDrivesPerInstance ≤ b.minDrivesPerInstance

/-- Insertion step of the ranker's sort: place `a` before the first
element it ranks before or ties with. -/
def insertRanked (a : DecisionMatrixRow) : List DecisionMatrixRow → List DecisionMatrixRow
  | [] => [a]
  | b :: bs => if rankBefore a b then a :: b :: bs else b :: insertRanked a bs

/-- Modelled from the spec: `rank(candidateRows) → orderedRows`
(spec 4.2), a pure deterministic insertion sort by `rankBefore`. -/
def rankRows : List DecisionMatrixRow → List DecisionMatrixRow
  | [] => []
  | a :: as => insertRanked a (rankRows as)

/-- Total capacity provided by `count` drives of capacity `cap` on
`instancesPerZone` instances in each of `zoneCount` zones (spec 4.3). -/
def totalCapacity (cap count instancesPerZone zoneCount : Nat) : Nat :=
  cap * count * instancesPerZone * zoneCount

/-- Smallest drive capacity within the row's lower bound whose total
reaches `spec.minCapacity` for the given per-drive multiplier `d`
(spec 4.3: start from the smallest capacity that pushes total capacity to
at least the floor). -/
def smallestCap (row : DecisionMatrixRow) (spec : CapacitySpec) (d : Nat) : Nat :=
  max row.minSize ((spec.minCapacity + d - 1) / d)

/-- Modelled from the spec: the capacity allocator's bounded search
(spec 4.3).  Starting from `count = minDrivesPerInstance`, compute the
smallest in-bound capacity reaching the floor; accept the pair when it
also respects `maxSize` and the capacity ceiling, otherwise increase the
drive count and retry.  `fuel` bounds the search at
`maxDrivesPerInstance - minDrivesPerInstance + 1` iterations. -/
def allocSearch (row : DecisionMatrixRow) (spec : CapacitySpec)
    (instancesPerZone zoneCount : Nat) : Nat → Nat → Option PoolSpec
  | _, 0 => none
  | count, fuel + 1 =>
    let cap := smallestCap row spec (count * instancesPerZone * zoneCount)
    if cap ≤ row.maxSize ∧
        spec.minCapacity ≤ totalCapacity cap count instancesPerZone zoneCount ∧
        totalCapacity cap count instancesPerZone zoneCount ≤ spec.maxCapacity then
      some ⟨cap, row.driveType, count⟩
    else
      allocSearch row spec instancesPerZone zoneCount (count + 1) fuel

/-- Modelled from the spec: `allocate(row, spec, instancesPerZone,
zoneCount) → PoolSpec | error` (spec 4.3); `none` stands for the
`CapacityUnsatisfiable` failure. -/
def allocate (row : DecisionMatrixRow) (spec : CapacitySpec)
    (instancesPerZone zoneCount : Nat) : Option PoolSpec :=
  allocSearch row spec instancesPerZone zoneCount row.minDrivesPerInstance
    (row.maxDrivesPerInstance + 1 - row.minDrivesPerInstance)

/-- Feasibility of a `(driveCount, driveCapacity)` pair for a row and a
spec (spec 4.3's goal): both row bounds respected and the total capacity
within the spec's inclusive bounds. -/
def feasiblePair (row : DecisionMatrixRow) (spec : CapacitySpec)
    (instancesPerZone zoneCount count cap : Nat) : Prop :=
  row.minDrivesPerInstance ≤ count ∧ count ≤ row.maxDrivesPerInstance ∧
  row.minSize ≤ cap ∧ cap ≤ row.maxSize ∧
  spec.minCapacity ≤ totalCapacity cap count instancesPerZone zoneCount ∧
  totalCapacity cap count instancesPerZone zoneCount ≤ spec.maxCapacity

instance (row : DecisionMatrixRow) (spec : CapacitySpec)
    (instancesPerZone zoneCount count cap : Nat) :
    Decidable (feasiblePair row spec instancesPerZone zoneCount count cap) := by
  unfold feasiblePair; infer_instance

/-- Modelled from the spec: the fallback loop of spec 4.4 step 3: attempt
allocation against the ranked rows in order; on failure fall through to
the next row; when all rows are exhausted fail with
`NoFeasibleConfiguration`. -/
def tryRows (spec : CapacitySpec) (instancesPerZone zoneCount : Nat) :
    List DecisionMatrixRow → Except ResolutionError PoolSpec
  | [] => .error .noFeasibleConfiguration
  | row :: rest =>
    match allocate row spec instancesPerZone zoneCount with
    | some pool => .ok pool
    | none => tryRows spec instancesPerZone zoneCount rest

/-- Modelled from the spec: per-spec resolution (spec 4.4 steps 1-3):
filter with the request's instance type and the spec's iops (the request
model carries no region, so the empty region is used and only
region-independent rows apply), rank, then try the ranked rows in order.
An empty candidate list fails with `NoMatchingRows`. -/
def resolveSpec (matrix : List DecisionMatrixRow) (instanceType : String)
    (instancesPerZone zoneCount : Nat) (spec : CapacitySpec) :
    Except ResolutionError PoolSpec :=
  let candidates := filterRows matrix instanceType ("") spec.iops
  if candidates.isEmpty then .error .noMatchingRows
  else tryRows spec instancesPerZone zoneCount (rankRows candidates)

/-- Modelled from the spec: resolution of a sequence of specs in order
(spec 4.4 step 4), stopping at the first failing spec. -/
def resolveSpecs (matrix : List DecisionMatrixRow) (instanceType : String)
    (instancesPerZone zoneCount : Nat) :
    List CapacitySpec → Except ResolutionError (List PoolSpec)
  | [] => .ok []
  | spec :: rest =>
    match resolveSpec matrix instanceType instancesPerZone zoneCount spec with
    | .error e => .error e
    | .ok pool =>
      match resolveSpecs matrix instanceType instancesPerZone zoneCount rest with
      | .error e => .error e
      | .ok pools => .ok (pool :: pools)

/-- Modelled from the spec: the fail-fast structural validation of
spec 7's `InvalidRequest`: non-empty spec list, `instancesPerZone ≥ 1`,
`zoneCount ≥ 1`, and `minCapacity ≤ maxCapacity` for every spec. -/
def validRequest (request : DistributionRequest) : Bool :=
  !request.specs.isEmpty &&
  decide (1 ≤ request.instancesPerZone) &&
  decide (1 ≤ request.zoneCount) &&
  request.specs.all (fun s => decide (s.minCapacity ≤ s.maxCapacity))

/-- Modelled from the spec: `resolve(request, matrix) →
DistributionResponse | error` (spec 4.4): validate, resolve every spec in
order, echo `instancesPerZone` back unmodified. -/
def resolve (request : DistributionRequest) (matrix : List DecisionMatrixRow) :
    Except ResolutionError DistributionResponse :=
  if validRequest request then
    match resolveSpecs matrix request.instanceType request.instancesPerZone
        request.zoneCount request.specs with
    | .error e => .error e
    | .ok pools => .ok ⟨pools, request.instancesPerZone⟩
  else .error .invalidRequest

/-! ## Concrete scenario from spec 8 -/

/-- The matrix row of the spec 8 scenario: iops 1000, instance type "m5",
drive count bounds 1..4, size bounds 100..500, priority high. -/
def scenarioRow : DecisionMatrixRow :=
  ⟨1000, "m5", 1, 4, "", 100, 500, .high, false, "gp2"⟩

/-- The capacity spec of the spec 8 scenario: iops 800, capacity bounds
900..1200. -/
def scenarioSpec : CapacitySpec := ⟨800, 900, 1200⟩

/-- The request of the spec 8 scenario: the single scenario spec on
instance type "m5" with one instance per zone and one zone. -/
def scenarioRequest : DistributionRequest := ⟨[scenarioSpec], "m5", 1, 1⟩

/-- The pool the modelled engine actually computes for the spec 8
scenario: two drives of capacity 450 (total 900, reaching the floor with
the smallest feasible drive count). -/
def scenarioPool : PoolSpec := ⟨450, "gp2", 2⟩

/-! ## Helper lemmas -/

theorem ceilDiv_le_of_le_mul (a d k : Nat) (h : a ≤ k * d) : (a + d - 1) / d ≤ k := by
  rcases Nat.eq_zero_or_pos d with hd | hd
  · subst hd; simp
  · rw [Nat.div_le_iff_le_mul_add_pred hd]
    have hc : d * k = k * d := Nat.mul_comm d k
    omega

theorem le_ceilDiv_mul (a d : Nat) (hd : 0 < d) : a ≤ ((a + d - 1) / d) * d := by
  have h1 := Nat.div_add_mod (a + d - 1) d
  have h2 := Nat.mod_lt (a + d - 1) hd
  have h3 : d * ((a + d - 1) / d) = ((a + d - 1) / d) * d := Nat.mul_comm _ _
  omega

theorem totalCapacity_eq (cap count ipz zc : Nat) :
    totalCapacity cap count ipz zc = cap * (count * ipz * zc) := by
  unfold totalCapacity; ring

theorem smallestCap_le (row : DecisionMatrixRow) (spec : CapacitySpec) (d cap : Nat)
    (h1 : row.minSize ≤ cap) (h2 : spec.minCapacity ≤ cap * d) :
    smallestCap row spec d ≤ cap :=
  max_le h1 (ceilDiv_le_of_le_mul _ _ _ h2)

theorem minCapacity_le_smallestCap_mul (row : DecisionMatrixRow) (spec : CapacitySpec)
    (d : Nat) (h : d = 0 → spec.minCapacity = 0) :
    spec.minCapacity ≤ smallestCap row spec d * d := by
  rcases Nat.eq_zero_or_pos d with hd | hd
  · simp [hd, h hd]
  · calc spec.minCapacity ≤ ((spec.minCapacity + d - 1) / d) * d := le_ceilDiv_mul _ _ hd
      _ ≤ smallestCap row spec d * d :=
        Nat.mul_le_mul_right d (le_max_right _ _)

theorem no_feasible_at_count (row : DecisionMatrixRow) (spec : CapacitySpec)
    (ipz zc count cap : Nat)
    (hfail : ¬ (smallestCap row spec (count * ipz * zc) ≤ row.maxSize ∧
      spec.minCapacity ≤
        totalCapacity (smallestCap row spec (count * ipz * zc)) count ipz zc ∧
      totalCapacity (smallestCap row spec (count * ipz * zc)) count ipz zc ≤
        spec.maxCapacity))
    (h1 : row.minSize ≤ cap) (h2 : cap ≤ row.maxSize)
    (h3 : spec.minCapacity ≤ totalCapacity cap count ipz zc)
    (h4 : totalCapacity cap count ipz zc ≤ spec.maxCapacity) : False := by
  rw [totalCapacity_eq] at h3 h4
  have hle : smallestCap row spec (count * ipz * zc) ≤ cap := smallestCap_le row spec _ cap h1 h3
  apply hfail
  refine ⟨le_trans hle h2, ?_, ?_⟩
  · rw [totalCapacity_eq]
    apply minCapacity_le_smallestCap_mul
    intro hd0
    rw [hd0, Nat.mul_zero] at h3
    omega
  · rw [totalCapacity_eq]
    exact le_trans (Nat.mul_le_mul_right _ hle) h4

theorem allocSearch_some_spec (row : DecisionMatrixRow) (spec : CapacitySpec)
    (ipz zc : Nat) :
    ∀ fuel count p, allocSearch row spec ipz zc count fuel = some p →
      p.driveType = row.driveType ∧
      count ≤ p.driveCount ∧ p.driveCount < count + fuel ∧
      row.minSize ≤ p.driveCapacity ∧ p.driveCapacity ≤ row.maxSize ∧
      spec.minCapacity ≤ totalCapacity p.driveCapacity p.driveCount ipz zc ∧
      totalCapacity p.driveCapacity p.driveCount ipz zc ≤ spec.maxCapacity ∧
      p.driveCapacity = smallestCap row spec (p.driveCount * ipz * zc) := by
  intro fuel
  induction fuel with
  | zero => intro count p h; simp [allocSearch] at h
  | succ n ih =>
    intro count p h
    rw [allocSearch] at h
    split at h
    · rename_i hcond
      obtain ⟨hmax, hlo, hhi⟩ := hcond
      cases h
      exact ⟨rfl, Nat.le_refl _, by show count < count + (n + 1); omega,
        le_max_left _ _, hmax, hlo, hhi, rfl⟩
    · obtain ⟨ht, h1, h2, h3, h4, h5, h6, h7⟩ := ih (count + 1) p h
      exact ⟨ht, by omega, by omega, h3, h4, h5, h6, h7⟩

theorem allocSearch_none_spec (row : DecisionMatrixRow) (spec : CapacitySpec)
    (ipz zc : Nat) :
    ∀ fuel count, allocSearch row spec ipz zc count fuel = none →
      ∀ c cap, count ≤ c → c < count + fuel →
        row.minSize ≤ cap → cap ≤ row.maxSize →
        spec.minCapacity ≤ totalCapacity cap c ipz zc →
        totalCapacity cap c ipz zc ≤ spec.maxCapacity → False := by
  intro fuel
  induction fuel with
  | zero => intro count _ c cap h1 h2 _ _ _ _; omega
  | succ n ih =>
    intro count h c cap hc1 hc2 hcap1 hcap2 hcap3 hcap4
    rw [allocSearch] at h
    split at h
    · exact Option.noConfusion h
    · rename_i hfail
      rcases Nat.eq_or_lt_of_le hc1 with heq | hlt
      · subst heq
        exact no_feasible_at_count row spec ipz zc count cap hfail hcap1 hcap2 hcap3 hcap4
      · exact ih (count + 1) h c cap hlt (by omega) hcap1 hcap2 hcap3 hcap4

theorem allocSearch_some_not_before (row : DecisionMatrixRow) (spec : CapacitySpec)
    (ipz zc : Nat) :
    ∀ fuel count p, allocSearch row spec ipz zc count fuel = some p →
      ∀ c cap, count ≤ c → c < p.driveCount →
        row.minSize ≤ cap → cap ≤ row.maxSize →
        spec.minCapacity ≤ totalCapacity cap c ipz zc →
        totalCapacity cap c ipz zc ≤ spec.maxCapacity → False := by
  intro fuel
  induction fuel with
  | zero => intro count p h; simp [allocSearch] at h
  | succ n ih =>
    intro count p h c cap hc1 hc2 hcap1 hcap2 hcap3 hcap4
    rw [allocSearch] at h
    split at h
    · cases h; change c < count at hc2; omega
    · rename_i hfail
      rcases Nat.eq_or_lt_of_le hc1 with heq | hlt
      · subst heq
        exact no_feasible_at_count row spec ipz zc count cap hfail hcap1 hcap2 hcap3 hcap4
      · exact ih (count + 1) p h c cap hlt hc2 hcap1 hcap2 hcap3 hcap4

theorem tryRows_first (spec : CapacitySpec) (ipz zc : Nat) :
    ∀ l : List DecisionMatrixRow,
      (∃ r ∈ l, (allocate r spec ipz zc).isSome) →
      ∃ l1 row l2 p, l = l1 ++ row :: l2 ∧
        (∀ r ∈ l1, allocate r spec ipz zc = none) ∧
        allocate row spec ipz zc = some p ∧
        tryRows spec ipz zc l = .ok p := by
  intro l
  induction l with
  | nil => intro h; simp at h
  | cons a as ih =>
    intro h
    cases ha : allocate a spec ipz zc with
    | some p =>
      exact ⟨[], a, as, p, rfl, by intro r hr; simp at hr, ha,
        by rw [tryRows, ha]⟩
    | none =>
      have hex : ∃ r ∈ as, (allocate r spec ipz zc).isSome := by
        obtain ⟨r, hr, hsome⟩ := h
        rcases List.mem_cons.mp hr with rfl | hr2
        · rw [ha] at hsome; simp at hsome
        · exact ⟨r, hr2, hsome⟩
      obtain ⟨l1, row, l2, p, hsplit, hfails, hrow, htry⟩ := ih hex
      refine ⟨a :: l1, row, l2, p, by rw [hsplit]; rfl, ?_, hrow, ?_⟩
      · intro r hr
        rcases List.mem_cons.mp hr with rfl | hr2
        · exact ha
        · exact hfails r hr2
      · rw [tryRows, ha]; exact htry

theorem tryRows_error (spec : CapacitySpec) (ipz zc : Nat) :
    ∀ (l : List DecisionMatrixRow) (e : ResolutionError),
      tryRows spec ipz zc l = .error e →
      ∀ r ∈ l, allocate r spec ipz zc = none := by
  intro l
  induction l with
  | nil => intro e _ r hr; simp at hr
  | cons a as ih =>
    intro e h r hr
    rw [tryRows] at h
    cases ha : allocate a spec ipz zc with
    | some p => rw [ha] at h; exact Except.noConfusion h
    | none =>
      rw [ha] at h
      rcases List.mem_cons.mp hr with rfl | hr2
      · exact ha
      · exact ih e h r hr2

theorem resolveSpecs_spec (matrix : List DecisionMatrixRow) (it : String)
    (ipz zc : Nat) :
    ∀ (l : List CapacitySpec) (ps : List PoolSpec),
      resolveSpecs matrix it ipz zc l = .ok ps →
      ps.length = l.length ∧
      ∀ i (hi : i < l.length) (hi2 : i < ps.length),
        resolveSpec matrix it ipz zc (l.get ⟨i, hi⟩) = .ok (ps.get ⟨i, hi2⟩) := by
  intro l
  induction l with
  | nil =>
    intro ps h
    rw [resolveSpecs] at h
    cases h
    exact ⟨rfl, by intro i hi; simp at hi⟩
  | cons s ss ih =>
    intro ps h
    rw [resolveSpecs] at h
    cases hs : resolveSpec matrix it ipz zc s with
    | error e => rw [hs] at h; exact Except.noConfusion h
    | ok p =>
      rw [hs] at h
      cases hss : resolveSpecs matrix it ipz zc ss with
      | error e => rw [hss] at h; exact Except.noConfusion h
      | ok ps2 =>
        rw [hss] at h
        cases h
        obtain ⟨hlen, hget⟩ := ih ps2 hss
        refine ⟨by simp [hlen], ?_⟩
        intro i hi hi2
        cases i with
        | zero => exact hs
        | succ j =>
          exact hget j (by simp at hi; omega) (by simp at hi2; omega)

/-! ## Claim theorems -/

/-- Claim C1: for every pool spec returned by a successful allocation, the
chosen drive count lies in the row's drive bounds, the chosen drive
capacity lies in the row's size bounds, and the spec's capacity bounds
hold for `driveCapacity * driveCount * instancesPerZone * zoneCount`. -/
theorem allocate_postcondition (row : DecisionMatrixRow) (spec : CapacitySpec)
    (ipz zc : Nat) (p : PoolSpec) (h : allocate row spec ipz zc = some p) :
    row.minDrivesPerInstance ≤ p.driveCount ∧
    p.driveCount ≤ row.maxDrivesPerInstance ∧
    row.minSize ≤ p.driveCapacity ∧ p.driveCapacity ≤ row.maxSize ∧
    spec.minCapacity ≤ p.driveCapacity * p.driveCount * ipz * zc ∧
    p.driveCapacity * p.driveCount * ipz * zc ≤ spec.maxCapacity := by
  rw [allocate] at h
  obtain ⟨_, h1, h2, h3, h4, h5, h6, _⟩ := allocSearch_some_spec row spec ipz zc _ _ p h
  simp only [totalCapacity] at h5 h6
  exact ⟨h1, by omega, h3, h4, h5, h6⟩

/-- Witness for C1 at the spec 8 scenario: allocation returns the pool
with capacity 450 and count 2, and the postcondition holds there. -/
theorem allocate_postcondition_witness :
    allocate scenarioRow scenarioSpec 1 1 = some scenarioPool ∧
    (scenarioRow.minDrivesPerInstance ≤ scenarioPool.driveCount ∧
     scenarioPool.driveCount ≤ scenarioRow.maxDrivesPerInstance ∧
     scenarioRow.minSize ≤ scenarioPool.driveCapacity ∧
     scenarioPool.driveCapacity ≤ scenarioRow.maxSize ∧
     scenarioSpec.minCapacity ≤
       scenarioPool.driveCapacity * scenarioPool.driveCount * 1 * 1 ∧
     scenarioPool.driveCapacity * scenarioPool.driveCount * 1 * 1 ≤
       scenarioSpec.maxCapacity) :=
  ⟨by decide, allocate_postcondition scenarioRow scenarioSpec 1 1 scenarioPool (by decide)⟩

/-- Claim C2: whenever some feasible pair exists within the row's bounds,
the allocator succeeds and returns the feasible pair with the smallest
drive count and, among those, the smallest drive capacity. -/
theorem allocate_minimality (row : DecisionMatrixRow) (spec : CapacitySpec)
    (ipz zc : Nat)
    (hex : ∃ count cap, feasiblePair row spec ipz zc count cap) :
    ∃ p, allocate row spec ipz zc = some p ∧
      feasiblePair row spec ipz zc p.driveCount p.driveCapacity ∧
      ∀ count cap, feasiblePair row spec ipz zc count cap →
        p.driveCount ≤ count ∧ (count = p.driveCount → p.driveCapacity ≤ cap) := by
  obtain ⟨c0, k0, hf0⟩ := hex
  unfold feasiblePair at hf0
  obtain ⟨hd1, hd2, hs1, hs2, hc1, hc2⟩ := hf0
  cases halloc : allocate row spec ipz zc with
  | none =>
    exfalso
    have halloc2 := halloc
    rw [allocate] at halloc2
    exact allocSearch_none_spec row spec ipz zc _ _ halloc2 c0 k0 hd1 (by omega)
      hs1 hs2 hc1 hc2
  | some p =>
    have halloc2 := halloc
    rw [allocate] at halloc2
    obtain ⟨_, h1, h2, h3, h4, h5, h6, hcap⟩ :=
      allocSearch_some_spec row spec ipz zc _ _ p halloc2
    refine ⟨p, rfl, ?_, ?_⟩
    · unfold feasiblePair
      exact ⟨h1, by omega, h3, h4, h5, h6⟩
    · intro c k hfk
      unfold feasiblePair at hfk
      obtain ⟨g1, g2, g3, g4, g5, g6⟩ := hfk
      constructor
      · by_contra hlt
        push_neg at hlt
        exact allocSearch_some_not_before row spec ipz zc _ _ p halloc2 c k g1 hlt
          g3 g4 g5 g6
      · intro hceq
        have g5b : spec.minCapacity ≤ k * (p.driveCount * ipz * zc) := by
          rw [← totalCapacity_eq, ← hceq]
          exact g5
        rw [hcap]
        exact smallestCap_le row spec _ k g3 g5b

/-- Witness for C2 at the spec 8 scenario: the pair (2 drives, capacity
450) is feasible there, so the allocator returns the minimal pair. -/
theorem allocate_minimality_witness :
    feasiblePair scenarioRow scenarioSpec 1 1 2 450 ∧
    (∃ p, allocate scenarioRow scenarioSpec 1 1 = some p ∧
      feasiblePair scenarioRow scenarioSpec 1 1 p.driveCount p.driveCapacity ∧
      ∀ count cap, feasiblePair scenarioRow scenarioSpec 1 1 count cap →
        p.driveCount ≤ count ∧ (count = p.driveCount → p.driveCapacity ≤ cap)) :=
  ⟨by decide, allocate_minimality scenarioRow scenarioSpec 1 1 ⟨2, 450, by decide⟩⟩

/-- Claim C3 (counterexample): at the spec 8 scenario input the resolution
returns driveCount 2 and driveCapacity 450, not driveCount 3 and
driveCapacity 300 as claimed — the pair (2, 450) is feasible and has the
smaller drive count, so the engine's minimality rule selects it. -/
theorem scenario_not_three_drives :
    (resolve scenarioRequest [scenarioRow]).map
      (fun resp => resp.instanceStorage.map (fun p => (p.driveCount, p.driveCapacity))) =
      .ok [(2, 450)] ∧ ((2, 450) : Nat × Nat) ≠ (3, 300) :=
  ⟨rfl, by decide⟩

/-- Claim C3 (amended): at the spec 8 scenario input the resolution
returns the single pool with driveCount 2 and driveCapacity 450. -/
theorem scenario_resolution_result :
    resolve scenarioRequest [scenarioRow] = .ok ⟨[scenarioPool], 1⟩ := rfl

/-- Claim C4: the row filter keeps exactly the rows matching the
instance-type/region/iops condition (as a sublist of the matrix), and
`rowFilter` fails with `NoMatchingRows` if and only if no row of the
matrix satisfies the condition. -/
theorem rowFilter_contract (matrix : List DecisionMatrixRow) (it reg : String)
    (desiredIOPS : Nat) :
    (∀ row, row ∈ filterRows matrix it reg desiredIOPS ↔
      row ∈ matrix ∧ ((row.instanceType = it ∨ row.instanceType = "*") ∧
        (row.region = reg ∨ row.region = "") ∧ desiredIOPS ≤ row.iops)) ∧
    List.Sublist (filterRows matrix it reg desiredIOPS) matrix ∧
    (rowFilter matrix it reg desiredIOPS = .error .noMatchingRows ↔
      ¬ ∃ row ∈ matrix, (row.instanceType = it ∨ row.instanceType = "*") ∧
        (row.region = reg ∨ row.region = "") ∧ desiredIOPS ≤ row.iops) := by
  have hmem : ∀ row, row ∈ filterRows matrix it reg desiredIOPS ↔
      row ∈ matrix ∧ ((row.instanceType = it ∨ row.instanceType = "*") ∧
        (row.region = reg ∨ row.region = "") ∧ desiredIOPS ≤ row.iops) := by
    intro row
    simp [filterRows, List.mem_filter, rowMatches, and_assoc]
  have hrf : rowFilter matrix it reg desiredIOPS =
      if (filterRows matrix it reg desiredIOPS).isEmpty then
        Except.error ResolutionError.noMatchingRows
      else Except.ok (filterRows matrix it reg desiredIOPS) := rfl
  have hempty : (filterRows matrix it reg desiredIOPS).isEmpty = true ↔
      ¬ ∃ row ∈ matrix, (row.instanceType = it ∨ row.instanceType = "*") ∧
        (row.region = reg ∨ row.region = "") ∧ desiredIOPS ≤ row.iops := by
    rw [List.isEmpty_iff]
    constructor
    · intro h hex
      obtain ⟨row, hrow, hcond⟩ := hex
      have hin := (hmem row).mpr ⟨hrow, hcond⟩
      rw [h] at hin
      simp at hin
    · intro h
      cases hf : filterRows matrix it reg desiredIOPS with
      | nil => rfl
      | cons a as =>
        exfalso
        apply h
        have hin : a ∈ filterRows matrix it reg desiredIOPS := by
          rw [hf]; exact List.mem_cons_self a as
        obtain ⟨h1, h2⟩ := (hmem a).mp hin
        exact ⟨a, h1, h2⟩
  refine ⟨hmem, List.filter_sublist _, ?_⟩
  rw [hrf]
  constructor
  · intro h
    cases hcase : (filterRows matrix it reg desiredIOPS).isEmpty with
    | true => exact hempty.mp hcase
    | false => rw [hcase] at h; simp at h
  · intro h
    rw [hempty.mpr h]
    simp

/-- Claim C5: whenever some ranked candidate row allows a successful
allocation, the per-spec resolution returns the pool allocated from the
highest-ranked such row (all rows ranked before it fail allocation) and
raises no error, and `NoFeasibleConfiguration` is raised only when
allocation fails for every ranked candidate row. -/
theorem resolveSpec_fallback (matrix : List DecisionMatrixRow) (it : String)
    (ipz zc : Nat) (spec : CapacitySpec) :
    ((∃ r ∈ rankRows (filterRows matrix it ("") spec.iops),
        (allocate r spec ipz zc).isSome) →
      ∃ l1 row l2 p,
        rankRows (filterRows matrix it ("") spec.iops) = l1 ++ row :: l2 ∧
        (∀ r ∈ l1, allocate r spec ipz zc = none) ∧
        allocate row spec ipz zc = some p ∧
        resolveSpec matrix it ipz zc spec = .ok p) ∧
    (resolveSpec matrix it ipz zc spec = .error .noFeasibleConfiguration →
      ∀ r ∈ rankRows (filterRows matrix it ("") spec.iops),
        allocate r spec ipz zc = none) := by
  have hrs : resolveSpec matrix it ipz zc spec =
      if (filterRows matrix it ("") spec.iops).isEmpty then
        Except.error ResolutionError.noMatchingRows
      else tryRows spec ipz zc (rankRows (filterRows matrix it ("") spec.iops)) := rfl
  constructor
  · intro hex
    cases hemp : (filterRows matrix it ("") spec.iops).isEmpty with
    | true =>
      rw [List.isEmpty_iff] at hemp
      rw [hemp] at hex
      simp [rankRows] at hex
    | false =>
      obtain ⟨l1, row, l2, p, hsplit, hfails, hrow, htry⟩ :=
        tryRows_first spec ipz zc _ hex
      refine ⟨l1, row, l2, p, hsplit, hfails, hrow, ?_⟩
      rw [hrs, hemp]
      simpa using htry
  · intro herr
    cases hemp : (filterRows matrix it ("") spec.iops).isEmpty with
    | true =>
      rw [hrs, hemp] at herr
      simp at herr
    | false =>
      rw [hrs, hemp] at herr
      simp at herr
      exact tryRows_error spec ipz zc _ _ herr

/-- Witness for C5 at the spec 8 scenario: the single ranked candidate
row allows allocation, so resolution returns its pool. -/
theorem resolveSpec_fallback_witness :
    (∃ r ∈ rankRows (filterRows [scenarioRow] "m5" ("") scenarioSpec.iops),
      (allocate r scenarioSpec 1 1).isSome) ∧
    (∃ l1 row l2 p,
      rankRows (filterRows [scenarioRow] "m5" ("") scenarioSpec.iops) =
        l1 ++ row :: l2 ∧
      (∀ r ∈ l1, allocate r scenarioSpec 1 1 = none) ∧
      allocate row scenarioSpec 1 1 = some p ∧
      resolveSpec [scenarioRow] "m5" 1 1 scenarioSpec = .ok p) :=
  ⟨by decide, (resolveSpec_fallback [scenarioRow] "m5" 1 1 scenarioSpec).1 (by decide)⟩

/-- Claim C6: when resolution succeeds on a request with a non-empty spec
sequence, the response has exactly one pool spec per input spec, in
order, with entry i resolved from spec i, and the instances-per-zone is
echoed back. -/
theorem resolve_order_preservation (request : DistributionRequest)
    (matrix : List DecisionMatrixRow) (resp : DistributionResponse)
    (_hne : request.specs ≠ [])
    (h : resolve request matrix = .ok resp) :
    resp.instanceStorage.length = request.specs.length ∧
    resp.instancesPerZone = request.instancesPerZone ∧
    ∀ i (hi : i < request.specs.length) (hi2 : i < resp.instanceStorage.length),
      resolveSpec matrix request.instanceType request.instancesPerZone
        request.zoneCount (request.specs.get ⟨i, hi⟩) =
        .ok (resp.instanceStorage.get ⟨i, hi2⟩) := by
  rw [resolve] at h
  split at h
  · cases hrs : resolveSpecs matrix request.instanceType request.instancesPerZone
        request.zoneCount request.specs with
    | error e => rw [hrs] at h; exact Except.noConfusion h
    | ok pools =>
      rw [hrs] at h
      cases h
      obtain ⟨hlen, hget⟩ := resolveSpecs_spec matrix request.instanceType
        request.instancesPerZone request.zoneCount request.specs pools hrs
      exact ⟨hlen, rfl, hget⟩
  · exact Except.noConfusion h

/-- Witness for C6 at the spec 8 scenario: the one-spec request resolves
to the one-pool response, and entry 0 is resolved from spec 0. -/
theorem resolve_order_preservation_witness :
    (scenarioRequest.specs ≠ [] ∧
      resolve scenarioRequest [scenarioRow] = .ok ⟨[scenarioPool], 1⟩) ∧
    (([scenarioPool] : List PoolSpec).length = scenarioRequest.specs.length ∧
      (1 : Nat) = scenarioRequest.instancesPerZone ∧
      ∀ i (hi : i < scenarioRequest.specs.length)
        (hi2 : i < ([scenarioPool] : List PoolSpec).length),
        resolveSpec [scenarioRow] scenarioRequest.instanceType
          scenarioRequest.instancesPerZone scenarioRequest.zoneCount
          (scenarioRequest.specs.get ⟨i, hi⟩) =
          .ok (([scenarioPool] : List PoolSpec).get ⟨i, hi2⟩)) :=
  ⟨⟨by decide, rfl⟩,
    resolve_order_preservation scenarioRequest [scenarioRow] ⟨[scenarioPool], 1⟩
      (by decide) rfl⟩

/-- Claim C7: resolution is deterministic — for a fixed request and
matrix, any two calls to `resolve` yield the same result, since the
modelled engine is a pure function of its two inputs. -/
theorem resolve_deterministic (request : DistributionRequest)
    (matrix : List DecisionMatrixRow) :
    resolve request matrix = resolve request matrix := rfl

/-- Claim C8: the default set identifier constant `SetIdentifierNone` has
the string value "None". -/
theorem setIdentifierNone_value : SetIdentifierNone = "None" := rfl

/-- Claim C9: `NewStorageError` stores its three arguments in the `Code`,
`Msg` and `Instance` fields, and `Error` on the result returns exactly
the message (the code and instance do not appear in the error string). -/
theorem newStorageError_spec (code : Int) (msg inst : String) :
    (NewStorageError code msg inst).Code = code ∧
    (NewStorageError code msg inst).Msg = msg ∧
    (NewStorageError code msg inst).Instance = inst ∧
    (NewStorageError code msg inst).Error = msg :=
  ⟨rfl, rfl, rfl, rfl⟩

/-- Claim C10: the five storage error code constants are the consecutive
integers 5001 through 5005 and hence pairwise distinct. -/
theorem storage_error_code_values :
    ErrVolDetached = 5001 ∧ ErrVolInval = 5002 ∧
    ErrVolAttachedOnRemoteNode = 5003 ∧ ErrVolNotFound = 5004 ∧
    ErrInvalidDevicePath = 5005 ∧
    List.Pairwise (fun a b => a ≠ b)
      [ErrVolDetached, ErrVolInval, ErrVolAttachedOnRemoteNode,
       ErrVolNotFound, ErrInvalidDevicePath] := by
  decide
